import Mathlib

/-!
Shallow embedding of the betting recommendation engine implemented in
`scripts/recommend_bets.py` (a manifold.markets peer-signal recommender),
together with theorems settling the behavioural claims made about it.

Modelling conventions:
* numeric values (scores, balances, amounts, bankroll fractions) are rationals;
* a JSON dictionary key that may be absent is an `Option` field
  (`none` = key absent);
* a Python exception is an `Except.error`; a `try`/`except` that skips the
  affected item turns the error back into "item dropped", while code outside
  any `try` propagates the error.
-/

namespace RecommendBets

/-- Order classification of a bet, derived from the sign of `orderAmount`. -/
inductive OrderType
  | buy
  | sell
deriving DecidableEq, Repr

/-- A raw bet as returned by the bets endpoint.  `outcome` and `isCancelled`
are optional because `filter_bets` explicitly checks those keys are present;
`limitProb` is optional because the source reads it with
`bet.get('limitProb', None)`. -/
structure RawBet where
  userId : String
  contractId : String
  amount : ℚ
  orderAmount : ℚ
  createdTime : ℤ
  limitProb : Option ℚ
  outcome : Option String
  isCancelled : Option Bool
deriving DecidableEq, Repr

/-- Lines 87-96: keep only bets that have both an `outcome` and an
`isCancelled` key, with `outcome ∈ {YES, NO}` and `isCancelled = false`. -/
def filter_bets (bets : List RawBet) : List RawBet :=
  let valid_bets := bets.filter (fun b => b.outcome.isSome && b.isCancelled.isSome)
  valid_bets.filter (fun b =>
    (b.outcome == some "YES" || b.outcome == some "NO") && !(b.isCancelled == some true))

/-- A user that survived `sort_manifold_users`, in final overall-ranking
order, before a score is assigned. -/
structure RankedUser where
  id : String
  balance : ℚ
deriving DecidableEq, Repr

/-- A user annotated with the derived score (lines 63-74). -/
structure ScoredUser where
  id : String
  balance : ℚ
  score : ℚ
deriving DecidableEq, Repr

/-- Line 72-73: the score assigned to the trader at 0-based position `i` of
the final ranking of `N` traders:
`score = ((1 - (i+1)/N) - 0.5) * 2`. -/
def score_at (N : ℕ) (i : ℕ) : ℚ :=
  ((1 - ((i : ℚ) + 1) / (N : ℚ)) - 0.5) * 2

/-- Helper for `score_users`: walk the final ranking, assigning
`score_at N i` to the user at position `i`. -/
def score_users_go (N : ℕ) : ℕ → List RankedUser → List ScoredUser
  | _, [] => []
  | i, u :: rest => ⟨u.id, u.balance, score_at N i⟩ :: score_users_go N (i + 1) rest

/-- Lines 63-74: `score_users` assigns each user of the final ranking the
linearly interpolated score from (almost) +1 for the first down to -1 for
the last. -/
def score_users (sorted_users : List RankedUser) : List ScoredUser :=
  score_users_go sorted_users.length 0 sorted_users

/-- A bet inside a fetched market's `bets` list (used for the operator's
position and the recency filter). -/
structure MarketBet where
  userId : String
  outcome : String
  amount : ℚ
  createdTime : ℤ
deriving DecidableEq, Repr

/-- A fetched market record.  `id` is optional: a failed or malformed
market-detail fetch yields a record without an `id` key, and the source
reads `m['id']` unguardedly. -/
structure Market where
  id : Option String
  url : String
  bets : List MarketBet
deriving DecidableEq, Repr

/-- The operator's position in a market as built by
`calculate_market_position` (lines 116-128): a dict with exactly the keys
`outcome` and `amount`. -/
structure Position where
  outcome : String
  amount : ℚ
deriving DecidableEq, Repr

/-- Lines 116-128, translated clause by clause: collect the user's bets in
the market; if there are none, no position; otherwise sum the NO amounts and
the YES amounts; if the YES sum is positive return a YES position of the
full YES sum, else if the NO sum is positive return a NO position of the
full NO sum, else no position. -/
def calculate_market_position (user_id : String) (m : Market) : Option Position :=
  let user_bets := m.bets.filter (fun b => b.userId == user_id)
  if user_bets.isEmpty then none
  else
    let sum_no := ((user_bets.filter (fun b => b.outcome == "NO")).map MarketBet.amount).sum
    let sum_yes := ((user_bets.filter (fun b => b.outcome == "YES")).map MarketBet.amount).sum
    if sum_yes > 0 then some ⟨"YES", sum_yes⟩
    else if sum_no > 0 then some ⟨"NO", sum_no⟩
    else none

/-- The Position as the specification's words describe it, for comparison
with `calculate_market_position`: sum the operator's YES and NO bet amounts
and keep only the net-dominant side with the net amount; ties or zero (or
no bets) give no position. -/
def spec_market_position (user_id : String) (m : Market) : Option Position :=
  let user_bets := m.bets.filter (fun b => b.userId == user_id)
  let sum_no := ((user_bets.filter (fun b => b.outcome == "NO")).map MarketBet.amount).sum
  let sum_yes := ((user_bets.filter (fun b => b.outcome == "YES")).map MarketBet.amount).sum
  if sum_yes > sum_no then some ⟨"YES", sum_yes - sum_no⟩
  else if sum_no > sum_yes then some ⟨"NO", sum_no - sum_yes⟩
  else none

/-- The operator's bets inside a fetched market (the comprehension on
line 118). -/
def operator_bets (user_id : String) (m : Market) : List MarketBet :=
  m.bets.filter (fun b => b.userId == user_id)

/-- The sum of the operator's bet amounts for one outcome in a market
(lines 121-122). -/
def outcome_sum (user_id : String) (m : Market) (o : String) : ℚ :=
  (((operator_bets user_id m).filter (fun b => b.outcome == o)).map MarketBet.amount).sum

/-- Line 146: `[u for u in scored_users if bet['userId'] == u['id']][0]`,
with the surrounding `try`/`except` turning the IndexError into `None`. -/
def find_user (scored_users : List ScoredUser) (uid : String) : Option ScoredUser :=
  scored_users.find? (fun u => u.id == uid)

/-- A bet after the mutation loop of lines 144-165 added `user_score`,
`user_percentage_bankroll` and `order_type`. -/
structure EnrichedBet where
  userId : String
  contractId : String
  amount : ℚ
  orderAmount : ℚ
  createdTime : ℤ
  limitProb : Option ℚ
  outcome : Option String
  user_score : Option ℚ
  user_percentage_bankroll : ℚ
  order_type : Option OrderType
deriving DecidableEq, Repr

/-- Lines 144-165: look the trader up among the scored users (a failed
lookup leaves the score undefined); compute `|amount| / balance` with any
exception (no trader, zero balance) defaulting the fraction to 0, then cap
it at 1; classify the order from the sign of `orderAmount`. -/
def enrich_bet (scored_users : List ScoredUser) (b : RawBet) : EnrichedBet :=
  let relevant_user := find_user scored_users b.userId
  let relevant_user_score := relevant_user.map ScoredUser.score
  let relevant_user_percentage_bankroll :=
    match relevant_user with
    | none => 0
    | some u => if u.balance == 0 then 0 else |b.amount| / u.balance
  let order_type : Option OrderType :=
    if b.orderAmount > 0 then some OrderType.buy
    else if b.orderAmount < 0 then some OrderType.sell
    else none
  { userId := b.userId, contractId := b.contractId, amount := b.amount,
    orderAmount := b.orderAmount, createdTime := b.createdTime,
    limitProb := b.limitProb, outcome := b.outcome,
    user_score := relevant_user_score,
    user_percentage_bankroll := min 1 relevant_user_percentage_bankroll,
    order_type := order_type }

/-- Lines 167-168: keep only bets with a resolved order type and a resolved
trader score. -/
def enriched_kept (scored_users : List ScoredUser) (bets : List RawBet) : List EnrichedBet :=
  ((bets.map (enrich_bet scored_users)).filter (fun b => b.order_type.isSome)).filter
    (fun b => b.user_score.isSome)

/-- A raw suggested bet as built in the loop of lines 172-215.  `action`
and `outcome` are optional because some branches of the source never set
those keys; `limitProb` is doubly optional: the outer layer records whether
the key was set at all (the fade branch never sets it), the inner layer is
the stored value, which may itself be `None`. -/
structure Suggestion where
  contractId : String
  bankrollPercentage : ℚ
  user_score : ℚ
  timestamp : ℤ
  action : Option String
  outcome : Option String
  limitProb : Option (Option ℚ)
deriving DecidableEq, Repr

/-- The base suggestion dict of lines 175-178 / 193-196 (contract id,
bankroll fraction, trader score, bet time), together with the keys the
branch in question added. -/
def base_suggestion (b : EnrichedBet) (s : ℚ) (action outcome : Option String)
    (limitProb : Option (Option ℚ)) : Suggestion :=
  { contractId := b.contractId,
    bankrollPercentage := b.user_percentage_bankroll,
    user_score := s, timestamp := b.createdTime,
    action := action, outcome := outcome, limitProb := limitProb }

/-- Lines 172-215, one loop iteration: compare the bet's trader score to the
operator's score (looked up unguardedly, so an operator missing from the
scored list raises) and emit at most one raw suggestion.  A trader scoring
above the operator is mirrored (a sell becomes a buy of the opposite
outcome); one scoring below the operator and below -0.25 is faded (both
order types become a buy of the opposite outcome); otherwise nothing is
emitted.  Reading `bet['outcome']` when the key is absent raises. -/
def suggest_one (scored_users : List ScoredUser) (me_id : String) (b : EnrichedBet) :
    Except String (Option Suggestion) :=
  match b.user_score with
  | none => Except.ok none
  | some s =>
    match find_user scored_users me_id with
    | none => Except.error "IndexError"
    | some me_user =>
      if s > me_user.score then
        match b.order_type with
        | some OrderType.sell =>
          match b.outcome with
          | none => Except.error "KeyError"
          | some o =>
            Except.ok (some (base_suggestion b s (some "buy")
              (if o == "YES" then some "NO"
               else if o == "NO" then some "YES" else none)
              (some b.limitProb)))
        | some OrderType.buy =>
          match b.outcome with
          | none => Except.error "KeyError"
          | some o =>
            Except.ok (some (base_suggestion b s (some "buy") (some o)
              (some b.limitProb)))
        | none =>
          Except.ok (some (base_suggestion b s none none (some b.limitProb)))
      else if s < me_user.score then
        if s < -0.25 then
          match b.order_type with
          | some OrderType.sell =>
            match b.outcome with
            | none => Except.error "KeyError"
            | some o =>
              Except.ok (some (base_suggestion b s (some "buy")
                (some (if o == "YES" then "NO"
                       else if o == "NO" then "YES" else o))
                none))
          | some OrderType.buy =>
            match b.outcome with
            | none => Except.error "KeyError"
            | some o =>
              Except.ok (some (base_suggestion b s (some "buy")
                (if o == "YES" then some "NO"
                 else if o == "NO" then some "YES" else none)
                none))
          | none =>
            Except.ok (some (base_suggestion b s none none none))
        else Except.ok none
      else Except.ok none

/-- Insert a bet at the end of its score class (helper for the stable
ascending sort of line 170). -/
def insertByScore (a : EnrichedBet) : List EnrichedBet → List EnrichedBet
  | [] => [a]
  | b :: t =>
    if b.user_score.getD 0 ≤ a.user_score.getD 0 then b :: insertByScore a t
    else a :: b :: t

/-- Line 170: stable sort of the kept bets by ascending trader score (the
scores are all present at this point, so the `getD 0` default is inert). -/
def sortByScore (l : List EnrichedBet) : List EnrichedBet :=
  l.foldl (fun acc a => insertByScore a acc) []

/-- Evaluate an effectful predicate left to right and keep the passing
elements, propagating the first raised exception (a Python list
comprehension whose condition may raise). -/
def exceptFilter {α : Type} (p : α → Except String Bool) : List α → Except String (List α)
  | [] => Except.ok []
  | a :: t =>
    match p a with
    | Except.error e => Except.error e
    | Except.ok b =>
      match exceptFilter p t with
      | Except.error e => Except.error e
      | Except.ok rest => Except.ok (if b then a :: rest else rest)

/-- Map an effectful function left to right, propagating the first raised
exception (a Python `for` loop body that may raise). -/
def exceptMap {α β : Type} (f : α → Except String β) : List α → Except String (List β)
  | [] => Except.ok []
  | a :: t =>
    match f a with
    | Except.error e => Except.error e
    | Except.ok b =>
      match exceptMap f t with
      | Except.error e => Except.error e
      | Except.ok rest => Except.ok (b :: rest)

/-- The unguarded lookup `[m for m in markets if m['id'] == cid][0]`
(lines 230, 299, 310): reading `m['id']` of a record without an `id` key
raises, and an empty result raises IndexError. -/
def find_market (markets : List Market) (cid : String) : Except String Market :=
  match exceptFilter (fun m =>
      match m.id with
      | none => Except.error "KeyError"
      | some i => Except.ok (i == cid)) markets with
  | Except.error e => Except.error e
  | Except.ok ms =>
    match ms with
    | [] => Except.error "IndexError"
    | m :: _ => Except.ok m

/-- Lines 231-235: the `createdTime` of the operator's most recent bet in a
market, or `None` when the operator has no bets there. -/
def my_most_recent (me_id : String) (m : Market) : Option ℤ :=
  ((m.bets.filter (fun b => b.userId == me_id)).map MarketBet.createdTime).max?

/-- Line 236: a suggestion survives when the operator has no bets in the
market or when the suggestion's timestamp is strictly later than the
operator's most recent bet there. -/
def survives_recency (me_id : String) (m : Market) (sb : Suggestion) : Bool :=
  match my_most_recent me_id m with
  | none => true
  | some t => decide (t < sb.timestamp)

/-- Lines 228-237: the recency filter between signal generation and
aggregation.  The market lookup on line 230 is not inside any `try`, so a
failing lookup propagates. -/
def recency_filter (me_id : String) (markets : List Market) (sbs : List Suggestion) :
    Except String (List Suggestion) :=
  exceptFilter (fun sb =>
    match find_market markets sb.contractId with
    | Except.error e => Except.error e
    | Except.ok m => Except.ok (survives_recency me_id m sb)) sbs

/-- An aggregated per-market suggestion (lines 294-299).  `action` is the
literal `'buy'`; `outcome` and `bankrollPercentage` are `None` when neither
side produced a signal. -/
structure AggSuggestion where
  contractId : String
  action : String
  outcome : Option String
  bankrollPercentage : Option ℚ
  limitProb : Option ℚ
  url : String
deriving DecidableEq, Repr

/-- Line 244: the comprehension condition
`b['contractId']==market_id and b['action']=='buy'`; reading `b['action']`
of a suggestion without an `action` key raises. -/
def buy_filter_pred (market_id : String) (b : Suggestion) : Except String Bool :=
  if b.contractId == market_id then
    match b.action with
    | none => Except.error "KeyError"
    | some a => Except.ok (a == "buy")
  else Except.ok false

/-- Line 251/255: the per-suggestion weighted contribution
`bankrollPercentage * abs(user_score)`. -/
def weighted (b : Suggestion) : ℚ := b.bankrollPercentage * |b.user_score|

/-- Python `sum` over a list of collected `limitProb` values: a `None`
element raises TypeError at the point it is added. -/
def sum_limits : List (Option ℚ) → Except String ℚ
  | [] => Except.ok 0
  | none :: _ => Except.error "TypeError"
  | some q :: t =>
    match sum_limits t with
    | Except.error e => Except.error e
    | Except.ok s => Except.ok (q + s)

/-- Lines 262-265 / 270-273: average of the collected limit values when any
were collected (`None` otherwise), raising when a collected value is
`None`. -/
def mean_limit (limits : List (Option ℚ)) : Except String (Option ℚ) :=
  if limits.length > 0 then
    match sum_limits limits with
    | Except.error e => Except.error e
    | Except.ok s => Except.ok (some (s / (limits.length : ℚ)))
  else Except.ok none

/-- Lines 243-299, the body of the per-market `try` block: restrict to the
market's buy suggestions, partition by outcome (reading a missing `outcome`
key raises), average the weighted signals and the collected limit values,
resolve the net outcome and net bankroll fraction, and look the market's
url up. -/
def aggregate_market_exc (markets : List Market) (suggestions : List Suggestion)
    (market_id : String) : Except String AggSuggestion :=
  match exceptFilter (buy_filter_pred market_id) suggestions with
  | Except.error e => Except.error e
  | Except.ok market_bets =>
    if market_bets.any (fun b => b.outcome == none) then Except.error "KeyError"
    else
      let yes_bets := market_bets.filter (fun b => b.outcome == some "YES")
      let no_bets := market_bets.filter (fun b => b.outcome == some "NO")
      let yes_percentages := yes_bets.map weighted
      let no_percentages := no_bets.map weighted
      let yes_limits := yes_bets.filterMap Suggestion.limitProb
      let no_limits := no_bets.filterMap Suggestion.limitProb
      let yes_percentage : Option ℚ :=
        if yes_percentages.length > 0 then
          some (yes_percentages.sum / (yes_percentages.length : ℚ))
        else none
      let no_percentage : Option ℚ :=
        if no_percentages.length > 0 then
          some (no_percentages.sum / (no_percentages.length : ℚ))
        else none
      match mean_limit yes_limits with
      | Except.error e => Except.error e
      | Except.ok yes_limit =>
        match mean_limit no_limits with
        | Except.error e => Except.error e
        | Except.ok no_limit =>
          let agg : Option String × Option ℚ :=
            match yes_percentage, no_percentage with
            | some y, some n => (some (if y > n then "YES" else "NO"), some (y - n))
            | some y, none => (some "YES", some y)
            | none, some n => (some "NO", some n)
            | none, none => (none, none)
          let aggregate_limit : Option ℚ :=
            match yes_limit, no_limit with
            | some y, some n => some ((y + n) / 2)
            | some y, none => some y
            | none, some n => some n
            | none, none => none
          match find_market markets market_id with
          | Except.error e => Except.error e
          | Except.ok m =>
            Except.ok { contractId := market_id, action := "buy",
                        outcome := agg.1, bankrollPercentage := agg.2,
                        limitProb := aggregate_limit, url := m.url }

/-- Lines 242-302: one market of the aggregation loop; the surrounding
`try`/`except` turns any exception into skipping the market. -/
def aggregate_market (markets : List Market) (suggestions : List Suggestion)
    (market_id : String) : Option AggSuggestion :=
  (aggregate_market_exc markets suggestions market_id).toOption

/-- Lines 241-302: aggregate every distinct contract id appearing among the
filtered suggestions, skipping markets whose computation raised. -/
def aggregate (markets : List Market) (filtered : List Suggestion) : List AggSuggestion :=
  ((filtered.map (fun b => b.contractId)).dedup).filterMap
    (fun mid => aggregate_market markets filtered mid)

/-- A clean suggestion (lines 316-351). -/
structure CleanSuggestion where
  contractId : String
  url : String
  action : String
  outcome : Option String
  bankrollPercentage : Option ℚ
  limitProb : Option ℚ
deriving DecidableEq, Repr

/-- Lines 309-351, the body of the per-suggestion `try` block of the
position reconciler.  With no position the aggregated suggestion passes
through unchanged.  With a position, its bankroll fraction is the position
amount over the operator balance (a zero balance raises).  A same-outcome
suggestion becomes one buy sized to the signed difference.  An
opposite-outcome suggestion reaches the sell construction of line 326-331
(or 342-347), which reads `my_market_position['limitProb']` -- a key
`calculate_market_position` never sets -- and therefore raises; with equal
fractions neither branch fires and nothing is emitted. -/
def reconcile_one (me_id : String) (me_balance : ℚ) (markets : List Market)
    (s : AggSuggestion) : Except String (List CleanSuggestion) :=
  match find_market markets s.contractId with
  | Except.error e => Except.error e
  | Except.ok m =>
    match calculate_market_position me_id m with
    | none =>
      Except.ok [{ contractId := s.contractId, url := s.url, action := s.action,
                   outcome := s.outcome, bankrollPercentage := s.bankrollPercentage,
                   limitProb := s.limitProb }]
    | some pos =>
      if me_balance == 0 then Except.error "ZeroDivisionError"
      else
        let position_bankrollPercentage := pos.amount / me_balance
        if s.outcome == some pos.outcome then
          match s.bankrollPercentage with
          | none => Except.error "TypeError"
          | some bp =>
            Except.ok [{ contractId := s.contractId, url := s.url, action := s.action,
                         outcome := s.outcome,
                         bankrollPercentage := some (bp - position_bankrollPercentage),
                         limitProb := s.limitProb }]
        else
          match s.bankrollPercentage with
          | none => Except.error "TypeError"
          | some bp =>
            if bp > position_bankrollPercentage then Except.error "KeyError"
            else if bp < position_bankrollPercentage then Except.error "KeyError"
            else Except.ok []

/-- Lines 306-355: the reconciliation loop; the `try`/`except` turns any
per-suggestion exception into skipping that suggestion. -/
def reconcile (me_id : String) (me_balance : ℚ) (markets : List Market)
    (aggs : List AggSuggestion) : List CleanSuggestion :=
  (aggs.map (fun s =>
    match reconcile_one me_id me_balance markets s with
    | Except.ok l => l
    | Except.error _ => [])).flatten

/-- Lines 141-355: the whole of `suggest_bets`, from the (already filtered)
bet list to the clean suggestion list.  The fetched market records are an
input: the source fetches one record per distinct suggested contract id in
an unprotected loop, so a fetch failure surfaces as a malformed record or a
missing one.  Enrich and keep the bets, sort them by trader score, generate
raw suggestions (unprotected), drop non-positive bankroll fractions, apply
the recency filter (unprotected), aggregate per market (protected) and
reconcile against the operator's positions (protected). -/
def suggest_bets (scored_users : List ScoredUser) (me_id : String) (me_balance : ℚ)
    (markets : List Market) (bets : List RawBet) : Except String (List CleanSuggestion) :=
  let sorted := sortByScore (enriched_kept scored_users bets)
  match exceptMap (suggest_one scored_users me_id) sorted with
  | Except.error e => Except.error e
  | Except.ok raw =>
    let suggested_bets := (raw.filterMap id).filter (fun s => s.bankrollPercentage > 0)
    match recency_filter me_id markets suggested_bets with
    | Except.error e => Except.error e
    | Except.ok filtered =>
      Except.ok (reconcile me_id me_balance markets (aggregate markets filtered))

deriving instance DecidableEq for Except

/-- A market where the operator's YES bets sum to 1 and the NO bets sum
to 100: the NO side dominates on net, but the source still reports a YES
position of 1. -/
def c1_market : Market :=
  { id := some "M1", url := "u1", bets := [⟨"OP", "YES", 1, 0⟩, ⟨"OP", "NO", 100, 1⟩] }

/-- A market where the operator only holds YES bets (sum 5). -/
def c1_wmarket : Market :=
  { id := some "M1w", url := "u1w", bets := [⟨"OP", "YES", 5, 0⟩] }

/-- A market where the operator holds a YES position of 10. -/
def c2_market : Market :=
  { id := some "M2", url := "u2", bets := [⟨"ME", "YES", 10, 0⟩] }

/-- An aggregated suggestion for the opposite outcome (NO) of half the
bankroll, larger than the operator's YES position of a tenth. -/
def c2_agg : AggSuggestion :=
  { contractId := "M2", action := "buy", outcome := some "NO",
    bankrollPercentage := some (1 / 2), limitProb := none, url := "u2" }

/-- The same aggregated suggestion scaled down to a twentieth of the
bankroll, smaller than the operator's YES position of a tenth. -/
def c2_agg_small : AggSuggestion :=
  { contractId := "M2", action := "buy", outcome := some "NO",
    bankrollPercentage := some (1 / 20), limitProb := none, url := "u2" }

/-- A mirror-produced buy suggestion whose source bet carried no limit
price: the `limitProb` key is present and holds `None`, exactly as the
spec's own end-to-end scenario prescribes ("no limit"). -/
def c8_sugg : Suggestion :=
  { contractId := "M8", bankrollPercentage := 1 / 10, user_score := 9 / 10,
    timestamp := 5, action := some "buy", outcome := some "YES",
    limitProb := some none }

def c8_market : Market := { id := some "M8", url := "u8", bets := [] }

/-- A strong trader and the operator, both scored. -/
def c9_scored : List ScoredUser := [⟨"T", 100, 9 / 10⟩, ⟨"ME", 100, 0⟩]

/-- A valid buy bet by the strong trader. -/
def c9_bet : RawBet :=
  { userId := "T", contractId := "M9", amount := 10, orderAmount := 10,
    createdTime := 5, limitProb := none, outcome := some "YES",
    isCancelled := some false }

/-- A malformed market-detail fetch result: the record has no `id` key
(for example an API error payload). -/
def c9_bad_market : Market := { id := none, url := "u9", bets := [] }

/-- A market in which the operator's most recent bet is at time 10. -/
def c3_market : Market := { id := some "M3", url := "u3", bets := [⟨"ME3", "YES", 5, 10⟩] }

/-- A suggestion generated at time 11, after the operator's last bet. -/
def c3_sugg : Suggestion :=
  { contractId := "M3", bankrollPercentage := 1, user_score := 1, timestamp := 11,
    action := some "buy", outcome := some "YES", limitProb := some none }

/-- A top trader and the operator, for the action invariant witness. -/
def c10_scored : List ScoredUser := [⟨"T10", 100, 1⟩, ⟨"ME10", 100, 0⟩]

/-- An enriched buy bet by that trader. -/
def c10_ebet : EnrichedBet :=
  { userId := "T10", contractId := "C10", amount := 10, orderAmount := 10,
    createdTime := 3, limitProb := none, outcome := some "YES",
    user_score := some 1, user_percentage_bankroll := 1,
    order_type := some OrderType.buy }

theorem score_users_go_getElem? (N : ℕ) (l : List RankedUser) :
    ∀ i k : ℕ, (score_users_go N i l)[k]? =
      l[k]?.map (fun u => ⟨u.id, u.balance, score_at N (i + k)⟩) := by
  induction l with
  | nil => intro i k; simp [score_users_go]
  | cons u t ih =>
    intro i k
    cases k with
    | zero => simp [score_users_go]
    | succ k =>
      have h : i + 1 + k = i + (k + 1) := by omega
      simp [score_users_go, ih (i + 1) k, h]

theorem score_users_go_mem (N : ℕ) (l : List RankedUser) :
    ∀ (i : ℕ) (u : ScoredUser), u ∈ score_users_go N i l →
      ∃ k, k < l.length ∧ u.score = score_at N (i + k) := by
  induction l with
  | nil => intro i u h; simp [score_users_go] at h
  | cons v t ih =>
    intro i u h
    simp only [score_users_go, List.mem_cons] at h
    rcases h with rfl | h
    · exact ⟨0, by simp, by simp⟩
    · obtain ⟨k, hk, hs⟩ := ih (i + 1) u h
      refine ⟨k + 1, by simpa using Nat.succ_lt_succ hk, ?_⟩
      rw [hs]
      congr 1
      omega

theorem score_at_bounds (N i : ℕ) (h : i < N) : -1 ≤ score_at N i ∧ score_at N i ≤ 1 := by
  have hN : (0 : ℚ) < N := by exact_mod_cast Nat.pos_of_ne_zero (by omega)
  have h1 : ((i : ℚ) + 1) ≤ (N : ℚ) := by exact_mod_cast Nat.succ_le_of_lt h
  have h0 : (0 : ℚ) < (i : ℚ) + 1 := by positivity
  have hx1 : ((i : ℚ) + 1) / N ≤ 1 := (div_le_one hN).mpr h1
  have hx0 : 0 < ((i : ℚ) + 1) / N := div_pos h0 hN
  unfold score_at
  rw [show (0.5 : ℚ) = 1 / 2 by norm_num]
  constructor <;> linarith

theorem score_at_strict (N i j : ℕ) (hij : i < j) (hj : j < N) :
    score_at N j < score_at N i := by
  have hN : (0 : ℚ) < N := by exact_mod_cast Nat.pos_of_ne_zero (by omega)
  have hij' : ((i : ℚ) + 1) < ((j : ℚ) + 1) := by
    exact_mod_cast Nat.succ_lt_succ hij
  have key : ((i : ℚ) + 1) / N < ((j : ℚ) + 1) / N := by
    rw [div_lt_div_iff₀ hN hN]
    nlinarith
  unfold score_at
  linarith

/-- C6: in `score_users` the trader at 0-based final position `i` of `N`
ranked traders receives score `((1 - (i+1)/N) - 0.5) * 2`; every assigned
score lies in `[-1, 1]`; and a strictly better (smaller) final position
receives a strictly larger score. -/
theorem c6_scores (l : List RankedUser) (i : ℕ) (hi : i < l.length) :
    ((score_users l)[i]?).map ScoredUser.score
        = some (((1 - ((i : ℚ) + 1) / (l.length : ℚ)) - 0.5) * 2) ∧
    (∀ u ∈ score_users l, -1 ≤ u.score ∧ u.score ≤ 1) ∧
    ∀ j : ℕ, j < l.length → i < j → ∀ si sj : ℚ,
      ((score_users l)[i]?).map ScoredUser.score = some si →
      ((score_users l)[j]?).map ScoredUser.score = some sj → sj < si := by
  refine ⟨?_, ?_, ?_⟩
  · rw [score_users, score_users_go_getElem?, List.getElem?_eq_getElem hi]
    simp [score_at]
  · intro u hu
    obtain ⟨k, hk, hs⟩ := score_users_go_mem l.length l 0 u hu
    rw [hs]
    simpa using score_at_bounds l.length k hk
  · intro j hj hij si sj h1 h2
    rw [score_users, score_users_go_getElem?, List.getElem?_eq_getElem hi] at h1
    rw [score_users, score_users_go_getElem?, List.getElem?_eq_getElem hj] at h2
    simp only [Option.map_some', Option.some.injEq] at h1 h2
    rw [← h1, ← h2]
    simpa using score_at_strict l.length i j hij hj

/-- Witness for `c6_scores` at the last (and only) final position of a
singleton ranking, where the claimed formula gives the -1 endpoint. -/
theorem c6_scores_witness :
    ((score_users [⟨"a", 1⟩])[0]?).map ScoredUser.score
      = some (((1 - (((0 : ℕ) : ℚ) + 1) / (([⟨"a", 1⟩] : List RankedUser).length : ℚ)) - 0.5) * 2) :=
  (c6_scores [⟨"a", 1⟩] 0 (by decide)).1

unseal Rat.ofScientific Rat.mul Rat.inv Rat.add Rat.sub in
/-- C1 (counterexample): in `c1_market` the operator's NO sum (100)
dominates the YES sum (1), so the claimed net-dominant derivation requires
a NO position of 99; the source instead reports a YES position of 1,
ignoring the NO sum entirely. -/
theorem c1_counterexample :
    calculate_market_position "OP" c1_market = some ⟨"YES", 1⟩ ∧
    spec_market_position "OP" c1_market = some ⟨"NO", 99⟩ ∧
    calculate_market_position "OP" c1_market ≠ spec_market_position "OP" c1_market := by
  decide

/-- C1 (amended): the derived Position keeps the summed YES side whenever
the YES sum is positive (regardless of the NO sum, ties included), with the
full YES sum as amount; otherwise the summed NO side when the NO sum is
positive; otherwise (and when the operator has no bets there) no
position. -/
theorem c1_amended (uid : String) (m : Market) :
    (operator_bets uid m = [] → calculate_market_position uid m = none) ∧
    (operator_bets uid m ≠ [] → 0 < outcome_sum uid m "YES" →
      calculate_market_position uid m = some ⟨"YES", outcome_sum uid m "YES"⟩) ∧
    (operator_bets uid m ≠ [] → outcome_sum uid m "YES" ≤ 0 →
      0 < outcome_sum uid m "NO" →
      calculate_market_position uid m = some ⟨"NO", outcome_sum uid m "NO"⟩) ∧
    (operator_bets uid m ≠ [] → outcome_sum uid m "YES" ≤ 0 →
      outcome_sum uid m "NO" ≤ 0 →
      calculate_market_position uid m = none) := by
  refine ⟨?_, ?_, ?_, ?_⟩ <;>
    simp only [calculate_market_position, operator_bets, outcome_sum]
  · intro h
    simp [h]
  · intro h hy
    rw [if_neg (by simp [List.isEmpty_iff, h]), if_pos hy]
  · intro h hy hn
    rw [if_neg (by simp [List.isEmpty_iff, h]), if_neg (by simpa using not_lt.mpr hy),
      if_pos hn]
  · intro h hy hn
    rw [if_neg (by simp [List.isEmpty_iff, h]), if_neg (by simpa using not_lt.mpr hy),
      if_neg (by simpa using not_lt.mpr hn)]

unseal Rat.ofScientific Rat.mul Rat.inv Rat.add Rat.sub in
/-- Witness for `c1_amended` at a concrete market with a positive YES
sum. -/
theorem c1_amended_witness :
    operator_bets "OP" c1_wmarket ≠ [] ∧
    calculate_market_position "OP" c1_wmarket
      = some ⟨"YES", outcome_sum "OP" c1_wmarket "YES"⟩ :=
  ⟨by decide, (c1_amended "OP" c1_wmarket).2.1 (by decide) (by decide)⟩

unseal Rat.ofScientific Rat.mul Rat.inv Rat.add Rat.sub in
/-- C2 (code bug): when the operator holds a position of the opposite
outcome, both reconciler branches construct their sell suggestion from
`my_market_position['limitProb']`, a key the position dict never has, so
the per-suggestion exception handler swallows a KeyError and nothing at all
is emitted -- neither the claimed sell-plus-buy (aggregate larger) nor the
claimed trimming sell (aggregate smaller). -/
theorem c2_bug :
    reconcile_one "ME" 100 [c2_market] c2_agg = Except.error "KeyError" ∧
    reconcile_one "ME" 100 [c2_market] c2_agg_small = Except.error "KeyError" ∧
    reconcile "ME" 100 [c2_market] [c2_agg, c2_agg_small] = [] := by
  decide

unseal Rat.ofScientific Rat.mul Rat.inv Rat.add Rat.sub in
/-- C8 (code bug): a market whose only qualifying buy suggestion is a
mirror suggestion without a limit price makes the aggregator sum a `None`
limit value; the TypeError is caught and the whole market is skipped, so no
aggregated suggestion is produced at all, against the claimed mean-signal
output. -/
theorem c8_bug :
    aggregate_market_exc [c8_market] [c8_sugg] "M8" = Except.error "TypeError" ∧
    aggregate_market [c8_market] [c8_sugg] "M8" = none ∧
    aggregate [c8_market] [c8_sugg] = [] := by
  decide

theorem filter_map_comm {α β : Type} (f : α → β) (p : β → Bool) (l : List α) :
    (l.map f).filter p = (l.filter (fun a => p (f a))).map f := by
  induction l with
  | nil => rfl
  | cons a t ih => by_cases h : p (f a) <;> simp [List.filter_cons, h, ih]

theorem enrich_bet_user_score_isSome (scored_users : List ScoredUser) (b : RawBet) :
    (enrich_bet scored_users b).user_score.isSome = (find_user scored_users b.userId).isSome := by
  simp [enrich_bet, Option.isSome_map']

theorem enrich_bet_order_type_isSome (scored_users : List ScoredUser) (b : RawBet) :
    (enrich_bet scored_users b).order_type.isSome = !(b.orderAmount == 0) := by
  unfold enrich_bet
  rcases lt_trichotomy b.orderAmount 0 with h | h | h
  · simp only [not_lt.mpr h.le, if_false, h, if_true, Option.isSome_some,
      beq_eq_false_iff_ne, ne_eq, h.ne, not_false_eq_true, Bool.not_true]
    simp [h.ne]
  · simp [h]
  · simp [h, h.ne']

/-- C5: a trader scoring strictly above the operator is mirrored: a buy bet
yields a buy suggestion of the same outcome, a sell bet a buy suggestion of
the opposite outcome; a trader scoring exactly the operator's score yields
nothing. -/
theorem c5_mirror (scored_users : List ScoredUser) (me_id : String) (b : EnrichedBet)
    (s : ℚ) (me_user : ScoredUser) (o : String)
    (hfind : find_user scored_users me_id = some me_user)
    (hscore : b.user_score = some s)
    (ho : b.outcome = some o)
    (hoval : o = "YES" ∨ o = "NO") :
    (s > me_user.score → b.order_type = some OrderType.buy →
      ∃ sug, suggest_one scored_users me_id b = Except.ok (some sug) ∧
        sug.action = some "buy" ∧ sug.outcome = some o) ∧
    (s > me_user.score → b.order_type = some OrderType.sell →
      ∃ sug, suggest_one scored_users me_id b = Except.ok (some sug) ∧
        sug.action = some "buy" ∧
        sug.outcome = some (if o = "YES" then "NO" else "YES")) ∧
    (s = me_user.score → suggest_one scored_users me_id b = Except.ok none) := by
  refine ⟨?_, ?_, ?_⟩
  · intro hgt hot
    refine ⟨base_suggestion b s (some "buy") (some o) (some b.limitProb), ?_, rfl, rfl⟩
    simp [suggest_one, hscore, hfind, hot, ho, hgt]
  · intro hgt hot
    rcases hoval with rfl | rfl
    · refine ⟨base_suggestion b s (some "buy") (some "NO") (some b.limitProb), ?_, rfl, by simp [base_suggestion]⟩
      simp [suggest_one, hscore, hfind, hot, ho, hgt]
    · refine ⟨base_suggestion b s (some "buy") (some "YES") (some b.limitProb), ?_, rfl, by simp [base_suggestion]⟩
      simp [suggest_one, hscore, hfind, hot, ho, hgt]
  · intro heq
    have h1 : ¬ s > me_user.score := by simp [heq]
    have h2 : ¬ s < me_user.score := by simp [heq]
    simp [suggest_one, hscore, hfind, h1, h2]

/-- Witness for `c5_mirror`: a buy bet by a trader scoring 1/2 against an
operator scoring 0 is mirrored to a buy of the same outcome. -/
theorem c5_mirror_witness :
    ∃ sug, suggest_one [⟨"T5", 100, 1 / 2⟩, ⟨"ME5", 100, 0⟩] "ME5"
        { userId := "T5", contractId := "C5", amount := 5, orderAmount := 5,
          createdTime := 1, limitProb := none, outcome := some "YES",
          user_score := some (1 / 2), user_percentage_bankroll := 1 / 20,
          order_type := some OrderType.buy } = Except.ok (some sug) ∧
      sug.action = some "buy" ∧ sug.outcome = some "YES" :=
  (c5_mirror [⟨"T5", 100, 1 / 2⟩, ⟨"ME5", 100, 0⟩] "ME5"
    { userId := "T5", contractId := "C5", amount := 5, orderAmount := 5,
      createdTime := 1, limitProb := none, outcome := some "YES",
      user_score := some (1 / 2), user_percentage_bankroll := 1 / 20,
      order_type := some OrderType.buy }
    (1 / 2) ⟨"ME5", 100, 0⟩ "YES" rfl rfl rfl (Or.inl rfl)).1 (by norm_num) rfl

/-- C4: a trader scoring strictly below the operator and strictly below
-0.25 is faded: both buy and sell bets yield exactly one buy suggestion of
the opposite outcome; below the operator but at or above -0.25 yields
nothing. -/
theorem c4_fade (scored_users : List ScoredUser) (me_id : String) (b : EnrichedBet)
    (s : ℚ) (me_user : ScoredUser) (o : String) (ot : OrderType)
    (hfind : find_user scored_users me_id = some me_user)
    (hscore : b.user_score = some s)
    (ho : b.outcome = some o)
    (hoval : o = "YES" ∨ o = "NO")
    (hot : b.order_type = some ot) :
    (s < me_user.score → s < -0.25 →
      ∃ sug, suggest_one scored_users me_id b = Except.ok (some sug) ∧
        sug.action = some "buy" ∧
        sug.outcome = some (if o = "YES" then "NO" else "YES")) ∧
    (s < me_user.score → -0.25 ≤ s →
      suggest_one scored_users me_id b = Except.ok none) := by
  constructor
  · intro hlt hthr
    have hng : ¬ s > me_user.score := not_lt.mpr hlt.le
    rcases hoval with rfl | rfl <;> cases ot
    · refine ⟨base_suggestion b s (some "buy") (some "NO") none, ?_, rfl, by simp [base_suggestion]⟩
      simp [suggest_one, hscore, hfind, hot, ho, hng, hlt, hthr]
    · refine ⟨base_suggestion b s (some "buy") (some "NO") none, ?_, rfl, by simp [base_suggestion]⟩
      simp [suggest_one, hscore, hfind, hot, ho, hng, hlt, hthr]
    · refine ⟨base_suggestion b s (some "buy") (some "YES") none, ?_, rfl, by simp [base_suggestion]⟩
      simp [suggest_one, hscore, hfind, hot, ho, hng, hlt, hthr]
    · refine ⟨base_suggestion b s (some "buy") (some "YES") none, ?_, rfl, by simp [base_suggestion]⟩
      simp [suggest_one, hscore, hfind, hot, ho, hng, hlt, hthr]
  · intro hlt hge
    have hng : ¬ s > me_user.score := not_lt.mpr hlt.le
    have hthr : ¬ s < -0.25 := not_lt.mpr hge
    simp [suggest_one, hscore, hfind, hng, hlt, hthr]

/-- Witness for `c4_fade`: a buy bet by a trader scoring -1/2 against an
operator scoring 0 is faded to a buy of the opposite outcome. -/
theorem c4_fade_witness :
    ∃ sug, suggest_one [⟨"ME4", 100, 0⟩] "ME4"
        { userId := "B4", contractId := "C4", amount := 5, orderAmount := 5,
          createdTime := 1, limitProb := none, outcome := some "YES",
          user_score := some (-(1 / 2)), user_percentage_bankroll := 1 / 20,
          order_type := some OrderType.buy } = Except.ok (some sug) ∧
      sug.action = some "buy" ∧
      sug.outcome = some (if ("YES" : String) = "YES" then "NO" else "YES") :=
  (c4_fade [⟨"ME4", 100, 0⟩] "ME4"
    { userId := "B4", contractId := "C4", amount := 5, orderAmount := 5,
      createdTime := 1, limitProb := none, outcome := some "YES",
      user_score := some (-(1 / 2)), user_percentage_bankroll := 1 / 20,
      order_type := some OrderType.buy }
    (-(1 / 2)) ⟨"ME4", 100, 0⟩ "YES" OrderType.buy rfl rfl rfl (Or.inl rfl) rfl).1
    (by norm_num) (by norm_num)

/-- C7: a raw bet survives the filter and enrichment stage iff its outcome
is a present YES or NO, it is not cancelled (with the key present), its
trader is scored, and its order amount is nonzero; every survivor carries a
resolved score and order type. -/
theorem c7_filter_enrich (scored_users : List ScoredUser) (bets : List RawBet) :
    enriched_kept scored_users (filter_bets bets) =
      (bets.filter (fun b =>
        (b.outcome == some "YES" || b.outcome == some "NO") &&
        (b.isCancelled == some false) &&
        (find_user scored_users b.userId).isSome &&
        !(b.orderAmount == 0))).map (enrich_bet scored_users) ∧
    ∀ e ∈ enriched_kept scored_users (filter_bets bets),
      e.user_score.isSome ∧ e.order_type.isSome := by
  constructor
  · unfold enriched_kept filter_bets
    rw [List.filter_filter, filter_map_comm, List.filter_filter, List.filter_filter]
    refine congrArg (List.map (enrich_bet scored_users)) (List.filter_congr fun b _ => ?_)
    rw [enrich_bet_user_score_isSome, enrich_bet_order_type_isSome]
    rcases hoc : b.outcome with _ | o <;> rcases hic : b.isCancelled with _ | bc
    · simp
    · cases bc <;> simp
    · simp
    · cases bc <;>
        simp [Bool.and_comm, Bool.and_left_comm, Bool.and_assoc]
  · intro e he
    unfold enriched_kept at he
    have h2 := List.mem_filter.mp he
    have h1 := List.mem_filter.mp h2.1
    exact ⟨h2.2, h1.2⟩

theorem exceptFilter_ok_eq {α : Type} (p : α → Except String Bool) :
    ∀ (l out : List α), exceptFilter p l = Except.ok out →
      out = l.filter (fun a =>
        match p a with
        | Except.ok b => b
        | Except.error _ => false) := by
  intro l
  induction l with
  | nil =>
    intro out h
    simp only [exceptFilter, Except.ok.injEq] at h
    simp [← h]
  | cons a t ih =>
    intro out h
    simp only [exceptFilter] at h
    rcases hp : p a with e | bb <;> rw [hp] at h
    · simp at h
    · rcases hf : exceptFilter p t with e2 | rest <;> rw [hf] at h
      · simp at h
      · rw [Except.ok.injEq] at h
        have hrest := ih rest hf
        subst h
        rw [List.filter_cons]
        cases bb <;> simp [hp, hrest]

theorem exceptFilter_isOk_of_forall {α : Type} (p : α → Except String Bool) :
    ∀ l : List α, (∀ a ∈ l, ∃ b, p a = Except.ok b) →
      ∃ out, exceptFilter p l = Except.ok out := by
  intro l
  induction l with
  | nil => exact fun _ => ⟨[], rfl⟩
  | cons a t ih =>
    intro h
    obtain ⟨b, hb⟩ := h a (List.mem_cons_self a t)
    obtain ⟨out, hout⟩ := ih (fun x hx => h x (List.mem_cons_of_mem a hx))
    refine ⟨if b then a :: out else out, ?_⟩
    simp [exceptFilter, hb, hout]

theorem exceptMap_isOk_of_forall {α β : Type} (f : α → Except String β) :
    ∀ l : List α, (∀ a ∈ l, ∃ r, f a = Except.ok r) →
      ∃ out, exceptMap f l = Except.ok out := by
  intro l
  induction l with
  | nil => exact fun _ => ⟨[], rfl⟩
  | cons a t ih =>
    intro h
    obtain ⟨r, hr⟩ := h a (List.mem_cons_self a t)
    obtain ⟨out, hout⟩ := ih (fun x hx => h x (List.mem_cons_of_mem a hx))
    exact ⟨r :: out, by simp [exceptMap, hr, hout]⟩

theorem exceptMap_ok_mem {α β : Type} (f : α → Except String β) :
    ∀ (l : List α) (out : List β), exceptMap f l = Except.ok out →
      ∀ y ∈ out, ∃ a ∈ l, f a = Except.ok y := by
  intro l
  induction l with
  | nil =>
    intro out h y hy
    simp only [exceptMap, Except.ok.injEq] at h
    rw [← h] at hy
    simp at hy
  | cons a t ih =>
    intro out h y hy
    simp only [exceptMap] at h
    rcases hfa : f a with e | r <;> rw [hfa] at h
    · simp at h
    · rcases hrest : exceptMap f t with e2 | rest <;> rw [hrest] at h
      · simp at h
      · rw [Except.ok.injEq] at h
        subst h
        rcases List.mem_cons.mp hy with rfl | hy2
        · exact ⟨a, List.mem_cons_self a t, hfa⟩
        · obtain ⟨x, hx, hfx⟩ := ih rest hrest y hy2
          exact ⟨x, List.mem_cons_of_mem a hx, hfx⟩

theorem mem_insertByScore {x a : EnrichedBet} :
    ∀ l : List EnrichedBet, x ∈ insertByScore a l → x = a ∨ x ∈ l := by
  intro l
  induction l with
  | nil => intro h; simp [insertByScore] at h; exact Or.inl h
  | cons b t ih =>
    intro h
    simp only [insertByScore] at h
    split at h
    · rcases List.mem_cons.mp h with rfl | h2
      · exact Or.inr (List.mem_cons_self _ _)
      · rcases ih h2 with h3 | h3
        · exact Or.inl h3
        · exact Or.inr (List.mem_cons_of_mem _ h3)
    · rcases List.mem_cons.mp h with rfl | h2
      · exact Or.inl rfl
      · exact Or.inr h2

theorem mem_sortByScore_aux :
    ∀ (l acc : List EnrichedBet) (x : EnrichedBet),
      x ∈ l.foldl (fun acc a => insertByScore a acc) acc → x ∈ acc ∨ x ∈ l := by
  intro l
  induction l with
  | nil => intro acc x h; exact Or.inl h
  | cons a t ih =>
    intro acc x h
    simp only [List.foldl_cons] at h
    rcases ih (insertByScore a acc) x h with h1 | h1
    · rcases mem_insertByScore _ h1 with rfl | h2
      · exact Or.inr (List.mem_cons_self x t)
      · exact Or.inl h2
    · exact Or.inr (List.mem_cons_of_mem a h1)

theorem mem_sortByScore {x : EnrichedBet} {l : List EnrichedBet}
    (h : x ∈ sortByScore l) : x ∈ l := by
  rcases mem_sortByScore_aux l [] x h with h1 | h1
  · simp at h1
  · exact h1

theorem suggest_one_isOk (scored_users : List ScoredUser) (me_id : String) (b : EnrichedBet)
    (hme : (find_user scored_users me_id).isSome) (hout : b.outcome.isSome) :
    ∃ r, suggest_one scored_users me_id b = Except.ok r := by
  obtain ⟨mu, hmu⟩ := Option.isSome_iff_exists.mp hme
  obtain ⟨o, ho⟩ := Option.isSome_iff_exists.mp hout
  rcases hus : b.user_score with _ | s
  · exact ⟨none, by simp [suggest_one, hus]⟩
  · rcases hot : b.order_type with _ | ot
    · simp only [suggest_one, hus, hmu, ho, hot]
      split_ifs <;> exact ⟨_, rfl⟩
    · cases ot <;> simp only [suggest_one, hus, hmu, ho, hot] <;> split_ifs <;>
        exact ⟨_, rfl⟩

theorem suggest_one_some_contractId (scored_users : List ScoredUser) (me_id : String)
    (b : EnrichedBet) (sug : Suggestion)
    (h : suggest_one scored_users me_id b = Except.ok (some sug)) :
    sug.contractId = b.contractId := by
  unfold suggest_one at h
  repeat' split at h
  all_goals simp_all [base_suggestion]
  all_goals subst h
  all_goals rfl

theorem suggest_one_action_buy (scored_users : List ScoredUser) (me_id : String)
    (b : EnrichedBet) (sug : Suggestion)
    (hot : b.order_type.isSome)
    (h : suggest_one scored_users me_id b = Except.ok (some sug)) :
    sug.action = some "buy" := by
  obtain ⟨ot, hot2⟩ := Option.isSome_iff_exists.mp hot
  unfold suggest_one at h
  repeat' split at h
  all_goals simp_all [base_suggestion]
  all_goals subst h
  all_goals rfl

theorem aggregate_market_action (markets : List Market) (sugs : List Suggestion)
    (mid : String) (a : AggSuggestion)
    (h : aggregate_market markets sugs mid = some a) : a.action = "buy" := by
  unfold aggregate_market at h
  rcases hexc : aggregate_market_exc markets sugs mid with e | agg <;> rw [hexc] at h
  · simp [Except.toOption] at h
  · simp only [Except.toOption, Option.some.injEq] at h
    subst h
    unfold aggregate_market_exc at hexc
    repeat' split at hexc
    all_goals try simp_all
    all_goals repeat' split at hexc
    all_goals simp_all
    all_goals subst hexc
    all_goals rfl

theorem reconcile_one_actions (me_id : String) (bal : ℚ) (markets : List Market)
    (s : AggSuggestion) (out : List CleanSuggestion)
    (hact : s.action = "buy") (h : reconcile_one me_id bal markets s = Except.ok out) :
    ∀ c ∈ out, c.action = "buy" := by
  intro c hc
  unfold reconcile_one at h
  repeat' split at h
  all_goals try simp_all
  all_goals repeat' split at h
  all_goals try simp_all
  all_goals try subst h
  all_goals simp_all

theorem find_market_isOk (markets : List Market) (cid : String)
    (hids : ∀ m ∈ markets, m.id.isSome)
    (hex : ∃ m ∈ markets, m.id = some cid) :
    ∃ mk, find_market markets cid = Except.ok mk := by
  have hall : ∀ m ∈ markets, ∃ b,
      (match m.id with
       | none => Except.error "KeyError"
       | some i => Except.ok (i == cid)) = Except.ok b := by
    intro m hm
    obtain ⟨i, hi⟩ := Option.isSome_iff_exists.mp (hids m hm)
    exact ⟨i == cid, by simp [hi]⟩
  obtain ⟨out, hout⟩ := exceptFilter_isOk_of_forall
    (fun m =>
      match m.id with
      | none => Except.error "KeyError"
      | some i => Except.ok (i == cid)) markets hall
  have heq := exceptFilter_ok_eq _ markets out hout
  obtain ⟨m0, hm0, hid0⟩ := hex
  have hmem : m0 ∈ out := by
    rw [heq]
    exact List.mem_filter.mpr ⟨hm0, by simp [hid0]⟩
  unfold find_market
  rw [hout]
  cases out with
  | nil => simp at hmem
  | cons a t => exact ⟨a, rfl⟩

/-- Witness for `c7_filter_enrich` at a one-bet, one-trader input. -/
theorem c7_filter_enrich_witness :
    enriched_kept [⟨"T7", 100, 1⟩] (filter_bets
        [{ userId := "T7", contractId := "C7", amount := 5, orderAmount := 5,
           createdTime := 1, limitProb := none, outcome := some "YES",
           isCancelled := some false }]) =
      ([{ userId := "T7", contractId := "C7", amount := 5, orderAmount := 5,
          createdTime := 1, limitProb := none, outcome := some "YES",
          isCancelled := some false }].filter (fun b =>
        (b.outcome == some "YES" || b.outcome == some "NO") &&
        (b.isCancelled == some false) &&
        (find_user [⟨"T7", 100, 1⟩] b.userId).isSome &&
        !(b.orderAmount == 0))).map (enrich_bet [⟨"T7", 100, 1⟩]) :=
  (c7_filter_enrich [⟨"T7", 100, 1⟩]
    [{ userId := "T7", contractId := "C7", amount := 5, orderAmount := 5,
       createdTime := 1, limitProb := none, outcome := some "YES",
       isCancelled := some false }]).1

/-- C3: the recency filter keeps exactly the suggestions whose looked-up
market passes `survives_recency`; and a suggestion survives iff the
operator has no bets in that market, or the suggestion's timestamp is
strictly greater than the `createdTime` of the operator's most recent bet
there. -/
theorem c3_recency (me_id : String) (markets : List Market) (sbs out : List Suggestion)
    (h : recency_filter me_id markets sbs = Except.ok out) :
    out = sbs.filter (fun sb =>
      match find_market markets sb.contractId with
      | Except.ok m => survives_recency me_id m sb
      | Except.error _ => false) ∧
    ∀ (m : Market) (sb : Suggestion),
      ((m.bets.filter (fun b => b.userId == me_id)) = [] →
        survives_recency me_id m sb = true) ∧
      ∀ t : ℤ,
        ((m.bets.filter (fun b => b.userId == me_id)).map MarketBet.createdTime).max?
            = some t →
        (survives_recency me_id m sb = true ↔ t < sb.timestamp) := by
  constructor
  · rw [recency_filter] at h
    have heq := exceptFilter_ok_eq _ sbs out h
    rw [heq]
    refine List.filter_congr fun sb _ => ?_
    rcases hfm : find_market markets sb.contractId with e | m <;> simp [hfm]
  · intro m sb
    constructor
    · intro hempty
      unfold survives_recency my_most_recent
      rw [hempty]
      rfl
    · intro t ht
      unfold survives_recency my_most_recent
      rw [ht]
      simp

/-- Witness for `c3_recency`: one suggestion later than the operator's
most recent bet in its market survives the filter. -/
theorem c3_recency_witness :
    [c3_sugg] = [c3_sugg].filter (fun sb =>
      match find_market [c3_market] sb.contractId with
      | Except.ok m => survives_recency "ME3" m sb
      | Except.error _ => false) :=
  (c3_recency "ME3" [c3_market] [c3_sugg] [c3_sugg] (by decide)).1

/-- C10: every suggestion the signal generator emits for a bet with a
resolved order type carries action `buy`; every aggregated suggestion
carries action `buy`; and the reconciler, fed a `buy` aggregated
suggestion, only ever outputs further `buy` suggestions when it outputs
anything at all (its sell-emitting branches never complete), so sell
actions can only ever originate in the reconciler's position-holding
branches. -/
theorem c10_actions :
    (∀ (scored_users : List ScoredUser) (me_id : String) (b : EnrichedBet)
        (sug : Suggestion), b.order_type.isSome →
        suggest_one scored_users me_id b = Except.ok (some sug) →
        sug.action = some "buy") ∧
    (∀ (markets : List Market) (sugs : List Suggestion) (mid : String)
        (a : AggSuggestion),
        aggregate_market markets sugs mid = some a → a.action = "buy") ∧
    (∀ (me_id : String) (bal : ℚ) (markets : List Market) (s : AggSuggestion)
        (out : List CleanSuggestion), s.action = "buy" →
        reconcile_one me_id bal markets s = Except.ok out →
        ∀ c ∈ out, c.action = "buy") :=
  ⟨fun su mi b sug hot h => suggest_one_action_buy su mi b sug hot h,
   fun markets sugs mid a h => aggregate_market_action markets sugs mid a h,
   fun mi bal markets s out hact h => reconcile_one_actions mi bal markets s out hact h⟩

/-- Witness for `c10_actions`: the mirror suggestion for a concrete buy bet
carries action `buy`. -/
theorem c10_actions_witness :
    suggest_one c10_scored "ME10" c10_ebet
      = Except.ok (some (base_suggestion c10_ebet 1 (some "buy") (some "YES") (some none))) ∧
    (base_suggestion c10_ebet 1 (some "buy") (some "YES") (some none)).action = some "buy" :=
  ⟨by decide, c10_actions.1 c10_scored "ME10" c10_ebet
    (base_suggestion c10_ebet 1 (some "buy") (some "YES") (some none)) (by decide) (by decide)⟩

unseal Rat.ofScientific Rat.mul Rat.inv Rat.add Rat.sub in
/-- C9 (counterexample): one malformed market-detail fetch result (a record
without an `id` key) makes the unprotected market lookup of the recency
filter raise, and the whole pipeline run aborts with an uncaught exception
instead of degrading to an empty output. -/
theorem c9_counterexample :
    suggest_bets c9_scored "ME" 100 [c9_bad_market] [c9_bet] = Except.error "KeyError" := by
  decide

/-- C9 (amended): the aggregation and reconciliation loops are protected,
so when every fetched market record has an `id`, every bet's market was
fetched, and the operator appears in the scored list, the pipeline always
completes normally; but a malformed or missing market record, or an
unscored operator, raises an uncaught exception (see the counterexample). -/
theorem c9_amended (scored_users : List ScoredUser) (me_id : String) (bal : ℚ)
    (markets : List Market) (bets : List RawBet)
    (hids : ∀ m ∈ markets, m.id.isSome)
    (hcov : ∀ b ∈ bets, ∃ m ∈ markets, m.id = some b.contractId)
    (hout : ∀ b ∈ bets, b.outcome.isSome)
    (hme : (find_user scored_users me_id).isSome) :
    (suggest_bets scored_users me_id bal markets bets).isOk = true := by
  have hsorted : ∀ e ∈ sortByScore (enriched_kept scored_users bets),
      ∃ b ∈ bets, e = enrich_bet scored_users b := by
    intro e he
    have h1 : e ∈ enriched_kept scored_users bets := mem_sortByScore he
    unfold enriched_kept at h1
    have h2 := (List.mem_filter.mp h1).1
    have h3 := (List.mem_filter.mp h2).1
    obtain ⟨b, hb, hbe⟩ := List.mem_map.mp h3
    exact ⟨b, hb, hbe.symm⟩
  have hmap : ∀ e ∈ sortByScore (enriched_kept scored_users bets),
      ∃ r, suggest_one scored_users me_id e = Except.ok r := by
    intro e he
    obtain ⟨b, hb, rfl⟩ := hsorted e he
    refine suggest_one_isOk scored_users me_id _ hme ?_
    simpa [enrich_bet] using hout b hb
  obtain ⟨raw, hraw⟩ := exceptMap_isOk_of_forall _ _ hmap
  unfold suggest_bets
  simp only [hraw]
  have hrf : ∃ filtered, recency_filter me_id markets
      ((raw.filterMap id).filter (fun sb => sb.bankrollPercentage > 0))
        = Except.ok filtered := by
    unfold recency_filter
    apply exceptFilter_isOk_of_forall
    intro sb hsb
    have hsb1 : sb ∈ raw.filterMap id := (List.mem_filter.mp hsb).1
    obtain ⟨osug, hos, hid⟩ := List.mem_filterMap.mp hsb1
    obtain ⟨e, he, hfe⟩ := exceptMap_ok_mem _ _ raw hraw osug hos
    have hosug : osug = some sb := hid
    rw [hosug] at hfe
    obtain ⟨b, hb, rfl⟩ := hsorted e he
    have hcid : sb.contractId = b.contractId :=
      suggest_one_some_contractId scored_users me_id _ sb hfe
    obtain ⟨mk, hmk⟩ := find_market_isOk markets sb.contractId hids
      (by rw [hcid]; exact hcov b hb)
    exact ⟨survives_recency me_id mk sb, by rw [hmk]⟩
  obtain ⟨filtered, hf⟩ := hrf
  simp only [hf]
  rfl

/-- Witness for `c9_amended` with trivially well-formed inputs. -/
theorem c9_amended_witness :
    (find_user [⟨"ME", 100, 0⟩] "ME").isSome = true ∧
    (suggest_bets [⟨"ME", 100, 0⟩] "ME" 100 [] []).isOk = true :=
  ⟨by decide,
   c9_amended [⟨"ME", 100, 0⟩] "ME" 100 [] [] (by simp) (by simp) (by simp) (by decide)⟩

end RecommendBets
